import Mathlib

/-!
Shallow embedding of the JSON request/response pipeline in
`st_veronica_foundation/static/js/st_veronica_foundation.js`.

jQuery class lists are modelled as `List String` with `addClass` and
`removeClass` mirroring jQuery semantics (adding is idempotent, removing
deletes every occurrence).  The shared loading / terminal presentation
state consists of the `.loading-spinner` element's class list and the
`body` element's class list.
-/

namespace StVeronica

/-- jQuery `addClass`: a no-op when the class is already present,
otherwise appends it. -/
def addClass (c : String) (l : List String) : List String :=
  if c ∈ l then l else l ++ [c]

/-- jQuery `removeClass`: removes every occurrence of the class. -/
def removeClass (c : String) (l : List String) : List String :=
  l.filter (fun x => x ≠ c)

@[simp]
theorem mem_addClass_iff (c x : String) (l : List String) :
    x ∈ addClass c l ↔ x ∈ l ∨ x = c := by
  unfold addClass
  by_cases h : c ∈ l
  · simp only [if_pos h]
    constructor
    · exact Or.inl
    · rintro (hx | rfl)
      · exact hx
      · exact h
  · simp [if_neg h]

@[simp]
theorem mem_removeClass_iff (c x : String) (l : List String) :
    x ∈ removeClass c l ↔ x ∈ l ∧ x ≠ c := by
  unfold removeClass
  simp [List.mem_filter]

/-- The shared presentation state touched by every request: the class list
of the `.loading-spinner` element and the class list of `body`. -/
structure UIState where
  spinner : List String
  body : List String
  deriving Repr, DecidableEq

/-- The `beforeSend` hook of `sendJsonRequest` (and of the `$.ajax` calls in
`ajaxPrefetch`): `$('.loading-spinner').addClass('show');
$body.addClass('ajax-loading');`. -/
def beforeSendFx (s : UIState) : UIState :=
  { spinner := addClass "show" s.spinner
    body := addClass "ajax-loading" s.body }

/-- Class updates of the `.done` handler: `$('.loading-spinner').removeClass('show');
$body.removeClass('ajax-loading').addClass('ajax-success');`. -/
def doneFx (s : UIState) : UIState :=
  { spinner := removeClass "show" s.spinner
    body := addClass "ajax-success" (removeClass "ajax-loading" s.body) }

/-- Class updates of the `.fail` handler: `$('.loading-spinner').removeClass('show');
$body.removeClass('ajax-loading').addClass('ajax-error');`. -/
def failFx (s : UIState) : UIState :=
  { spinner := removeClass "show" s.spinner
    body := addClass "ajax-error" (removeClass "ajax-loading" s.body) }

/-- The presentation-state effect of one complete request through the
dispatcher: the `beforeSend` hook followed by the completion handler for
the given outcome (`true` = HTTP success, `false` = failure).  The
`success`/`error` callbacks of the `ajaxPrefetch` `$.ajax` calls perform
the identical class updates. -/
def requestLifecycle (ok : Bool) (s : UIState) : UIState :=
  (if ok then doneFx else failFx) (beforeSendFx s)

/-- Claim C3: for every request issued through the dispatcher, the shared
loading flag (the `show` class on the loading spinner and the
`ajax-loading` class on `body`) is set by the `beforeSend` hook before the
request is sent, and is cleared by the completion handler on both the
success and the failure path, leaving no residual loading state. -/
theorem requestLifecycle_loading_flag (s : UIState) (ok : Bool) :
    ("show" ∈ (beforeSendFx s).spinner ∧ "ajax-loading" ∈ (beforeSendFx s).body) ∧
    ("show" ∉ (requestLifecycle ok s).spinner ∧
      "ajax-loading" ∉ (requestLifecycle ok s).body) := by
  refine ⟨⟨?_, ?_⟩, ?_, ?_⟩
  · simp [beforeSendFx]
  · simp [beforeSendFx]
  · cases ok <;> simp [requestLifecycle, doneFx, failFx]
  · cases ok <;>
      simp [requestLifecycle, doneFx, failFx, beforeSendFx, String.reduceEq]

/-- Claim C1 counterexample: starting from a clean presentation state, a
successful request followed by a failed request leaves `body` carrying
BOTH terminal classes `ajax-success` and `ajax-error` at once — the
completion handlers remove only `ajax-loading`, never the previously
applied opposite terminal class.  This refutes the claim that a
previously applied terminal class is removed first and that the state
never carries both terminal classes. -/
theorem requestLifecycle_double_terminal_class :
    "ajax-success" ∈ (requestLifecycle false (requestLifecycle true ⟨[], []⟩)).body ∧
    "ajax-error" ∈ (requestLifecycle false (requestLifecycle true ⟨[], []⟩)).body := by
  decide

/-- Claim C1 (amended): each completed request applies exactly the one
terminal class matching its outcome and removes the loading class, but
the opposite terminal class is NOT removed first: its presence is carried
over unchanged from before the request, so a success followed by a
failure leaves both terminal classes applied. -/
theorem requestLifecycle_terminal_class (s : UIState) (ok : Bool) :
    ((if ok then "ajax-success" else "ajax-error") ∈ (requestLifecycle ok s).body) ∧
    ((if ok then "ajax-error" else "ajax-success") ∈ (requestLifecycle ok s).body ↔
      (if ok then "ajax-error" else "ajax-success") ∈ s.body) ∧
    "ajax-loading" ∉ (requestLifecycle ok s).body := by
  cases ok <;>
    simp [requestLifecycle, doneFx, failFx, beforeSendFx, String.reduceEq]

/-! ### Response envelope and handler side effects

Handlers are embedded as functions producing a trace of side effects
(`Event`s).  JavaScript truthiness of an optional string field (`if
(data.message)`) is `truthyStr`; `form_errors`, `search_results` and
`notifications` are objects/arrays, which are truthy whenever present
(even when empty). -/

/-- One entry of the `notifications` array: `{message, type}`, `type`
optional. -/
structure NotificationEntry where
  message : String
  type : Option String := none
  deriving Repr, DecidableEq

/-- A search result `{url, title, excerpt}`. -/
structure SearchResult where
  url : String
  title : String
  excerpt : String
  deriving Repr, DecidableEq

/-- The untyped JSON response envelope with its optional fields. -/
structure Envelope where
  message : Option String := none
  success : Bool := false
  redirect : Option String := none
  content : Option String := none
  form_errors : Option (List (String × String)) := none
  form_success : Option String := none
  search_results : Option (List SearchResult) := none
  search_query : Option String := none
  notifications : Option (List NotificationEntry) := none
  deriving Repr, DecidableEq

/-- JavaScript truthiness of an optional string field: present and
non-empty. -/
def truthyStr : Option String → Bool
  | none => false
  | some s => s != ""

/-- Observable side effects of the handlers, in program order. -/
inductive Event where
  | notify (msg sev : String)
  | navigate (url : String)
  | fadeContentOut
  | setContent (html : String)
  | announce (msg : String)
  | trigger (name : String)
  | displayErrors (errs : List (String × String)) (formSel : Option String)
  | resetForm (sel : String)
  | displayResults (results : List SearchResult) (containerSel : Option String)
  | updateQueryDisplay (q : String)
  deriving Repr, DecidableEq

/-- Page-level context the handlers consult. -/
structure World where
  reducedMotion : Bool
  ajaxContainer : Bool
  /-- whether a jQuery selector matches at least one element of the page -/
  formMatches : String → Bool

/-- The `options` record threaded through `handleJsonResponse`. -/
structure HandlerOptions where
  formSelector : Option String := none
  containerSelector : Option String := none
  deriving Repr, DecidableEq

/-- Embedding of `loadAjaxContent(content)`: when the `.ajax-container` element exists,
swaps in the HTML and announces the change to screen readers; otherwise
does nothing. -/
def loadAjaxContentEvents (w : World) (content : String) : List Event :=
  if w.ajaxContainer then
    [.setContent content, .announce "Content loaded successfully"]
  else []

/-- Embedding of `processJsonData(data, options)`: notification for `message` (severity
from `success`), then navigation for `redirect` (behind a content fade
unless reduced motion is preferred — the fade only defers the navigation,
it does not reorder it before the notification), then content swap, then
the `stveronica.jsonProcessed` broadcast event. -/
def processJsonData (w : World) (data : Envelope) : List Event :=
  (if truthyStr data.message then
    [.notify (data.message.getD "") (if data.success then "success" else "error")]
  else []) ++
  (if truthyStr data.redirect then
    (if w.reducedMotion then [.navigate (data.redirect.getD "")]
     else [.fadeContentOut, .navigate (data.redirect.getD "")])
  else []) ++
  (if truthyStr data.content then loadAjaxContentEvents w (data.content.getD "")
  else []) ++
  [.trigger "stveronica.jsonProcessed"]

/-- Embedding of `processFormResponse(data, options)`.  Returns the events emitted
before any throw, paired with `some msg` when the handler throws.  The
only throwing site is `$(options.formSelector)[0].reset()`: when
`form_success` is truthy and `options.formSelector` is set but matches no
element, `$(...)[0]` is `undefined` and `.reset()` raises a `TypeError`. -/
def processFormResponse (w : World) (data : Envelope) (opts : HandlerOptions) :
    List Event × Option String :=
  let errPart : List Event :=
    match data.form_errors with
    | some errs => [.displayErrors errs opts.formSelector]
    | none => []
  if truthyStr data.form_success then
    match opts.formSelector with
    | some sel =>
      if w.formMatches sel then
        (errPart ++ [.resetForm sel,
          .notify (data.form_success.getD "") "success"] ++ processJsonData w data,
         none)
      else
        (errPart, some "TypeError: cannot read reset of undefined")
    | none =>
      (errPart ++ [.notify (data.form_success.getD "") "success"] ++
        processJsonData w data, none)
  else
    (errPart ++ processJsonData w data, none)

/-- Embedding of `processSearchResponse(data, options)`: never throws. -/
def processSearchResponse (w : World) (data : Envelope) (opts : HandlerOptions) :
    List Event × Option String :=
  ((match data.search_results with
    | some results => [.displayResults results opts.containerSelector]
    | none => []) ++
   (if truthyStr data.search_query then
      [.updateQueryDisplay (data.search_query.getD "")]
    else []) ++
   processJsonData w data, none)

/-- Severity default `notification.type || 'info'`. -/
def notificationSeverity (n : NotificationEntry) : String :=
  match n.type with
  | some t => if t != "" then t else "info"
  | none => "info"

/-- Embedding of `processNotificationResponse(data, options)`: emits one notification
per entry of `notifications` in array order, then the generic handler;
never throws. -/
def processNotificationResponse (w : World) (data : Envelope) :
    List Event × Option String :=
  ((match data.notifications with
    | some entries => entries.map (fun n => Event.notify n.message (notificationSeverity n))
    | none => []) ++ processJsonData w data, none)

/-- The `switch (responseType)` inside the `try` block of
`handleJsonResponse`: `form`, `search` and `notification` dispatch to
their handlers, every other tag falls through to `processJsonData`. -/
def routeChain (w : World) (data : Envelope) (responseType : String)
    (opts : HandlerOptions) : List Event × Option String :=
  match responseType with
  | "form" => processFormResponse w data opts
  | "search" => processSearchResponse w data opts
  | "notification" => processNotificationResponse w data
  | _ => (processJsonData w data, none)

/-- Embedding of `handleJsonResponse(data, responseType, options)`: runs the dispatch
chain inside `try`; returns `true` on completion, and on any exception
catches it, emits the generic `Error processing server response`
notification at `error` severity and returns `false`. -/
def handleJsonResponse (w : World) (data : Envelope) (responseType : String)
    (opts : HandlerOptions) : Bool × List Event :=
  match routeChain w data responseType opts with
  | (evs, none) => (true, evs)
  | (evs, some _) =>
    (false, evs ++ [.notify "Error processing server response" "error"])

/-- A page context where no selector matches, no `.ajax-container`
exists and reduced motion is off; used by concrete witnesses. -/
def pageNoMatch : World :=
  { reducedMotion := false, ajaxContainer := false, formMatches := fun _ => false }

/-- Claim C5: for every envelope and response-type tag, the Response
Router returns `true` when the handler chain completes without throwing,
and when the chain throws, the exception is caught at the Router
boundary, the generic `Error processing server response` notification is
emitted at `error` severity, and the call returns `false` instead of
propagating. -/
theorem handleJsonResponse_error_boundary (w : World) (data : Envelope)
    (responseType : String) (opts : HandlerOptions) :
    ((routeChain w data responseType opts).2 = none →
      handleJsonResponse w data responseType opts =
        (true, (routeChain w data responseType opts).1)) ∧
    (∀ e, (routeChain w data responseType opts).2 = some e →
      handleJsonResponse w data responseType opts =
        (false, (routeChain w data responseType opts).1 ++
          [.notify "Error processing server response" "error"])) := by
  rcases hchain : routeChain w data responseType opts with ⟨evs, err⟩
  cases err <;> simp [handleJsonResponse, hchain]

/-- Claim C5 witness: a `form` envelope with `form_success` whose form
selector matches nothing makes the reset throw; the Router returns
`false` and surfaces only the generic error notification. -/
theorem handleJsonResponse_error_boundary_witness :
    handleJsonResponse pageNoMatch { form_success := some "Thanks" } "form"
        { formSelector := some "#contact" } =
      (false, [.notify "Error processing server response" "error"]) := by
  have h := (handleJsonResponse_error_boundary pageNoMatch
    { form_success := some "Thanks" } "form" { formSelector := some "#contact" }).2
    "TypeError: cannot read reset of undefined" rfl
  exact h.trans (by decide)

/-- Claim C7: for every envelope containing both a truthy `message` and a
truthy `redirect`, `processJsonData` emits the message notification
first, strictly before the navigation to the redirect URL (the optional
content fade only defers the navigation further). -/
theorem processJsonData_message_before_redirect (w : World) (data : Envelope)
    (m r : String) (hm : data.message = some m) (hmne : m ≠ "")
    (hr : data.redirect = some r) (hrne : r ≠ "") :
    ∃ rest, processJsonData w data =
      Event.notify m (if data.success then "success" else "error") :: rest ∧
      Event.navigate r ∈ rest := by
  have h1 : truthyStr (some m) = true := by simp [truthyStr, hmne]
  have h2 : truthyStr (some r) = true := by simp [truthyStr, hrne]
  refine ⟨(if w.reducedMotion then [Event.navigate r]
      else [.fadeContentOut, .navigate r]) ++
    (if truthyStr data.content then loadAjaxContentEvents w (data.content.getD "")
      else []) ++ [.trigger "stveronica.jsonProcessed"], ?_, ?_⟩
  · simp [processJsonData, h1, h2, hm, hr]
  · cases w.reducedMotion <;> simp

/-- Claim C7 witness: the envelope `{message: "Saved", success: true,
redirect: "/next"}` emits the success notification first and navigates
afterwards. -/
theorem processJsonData_message_before_redirect_witness :
    ∃ rest, processJsonData pageNoMatch
        { message := some "Saved", success := true, redirect := some "/next" } =
      Event.notify "Saved" "success" :: rest ∧ Event.navigate "/next" ∈ rest := by
  have h := processJsonData_message_before_redirect pageNoMatch
    { message := some "Saved", success := true, redirect := some "/next" }
    "Saved" "/next" rfl (by decide) rfl (by decide)
  simpa using h

/-- Claim C9: for every envelope whose `notifications` field is present,
one notification is emitted per entry in sequence order, each with that
entry's message and severity, the severity defaulting to `info` when the
entry omits `type`. -/
theorem processNotificationResponse_in_order (w : World) (data : Envelope)
    (entries : List NotificationEntry) (h : data.notifications = some entries) :
    (processNotificationResponse w data).1 =
      entries.map (fun n => Event.notify n.message (notificationSeverity n)) ++
        processJsonData w data ∧
    ∀ m, notificationSeverity { message := m, type := none } = "info" := by
  constructor
  · simp [processNotificationResponse, h]
  · intro m; rfl

/-- Claim C9 witness: `{notifications: [{message:"A"},{message:"B",
type:"warning"}]}` emits exactly two notifications in order, the first at
the default severity `info`, the second at `warning`. -/
theorem processNotificationResponse_in_order_witness :
    (processNotificationResponse pageNoMatch
        { notifications := some [{ message := "A" },
            { message := "B", type := some "warning" }] }).1 =
      [.notify "A" "info", .notify "B" "warning",
        .trigger "stveronica.jsonProcessed"] := by
  have h := (processNotificationResponse_in_order pageNoMatch
    { notifications := some [{ message := "A" },
        { message := "B", type := some "warning" }] }
    [{ message := "A" }, { message := "B", type := some "warning" }] rfl).1
  exact h.trans (by decide)

/-! ### Notification Emitter (`showNotification`) -/

/-- The `#notification-toast` element: its message text and class list. -/
structure Toast where
  message : String
  classes : List String
  deriving Repr, DecidableEq

/-- How the toast gets displayed. -/
inductive ShowMechanism where
  | bootstrapToast (delayMs : Nat)
  | fadeFallback (delayMs : Nat)
  deriving Repr, DecidableEq

/-- Embedding of `showNotification(message, type)`: lazily creates the toast (class
list `["toast"]`), rewrites its message text in place, then executes the
line `$toast.remove//Class('success error warning info').addClass(type);`
— which merely reads the `remove` property and discards it, the class
update being commented out by the `//`, so the class list is left
unchanged and the `type` argument is never applied.  Finally shows the
toast through `bootstrap.Toast` with a 3000 ms delay when available, else
through the `fadeIn().delay(3000).fadeOut()` fallback. -/
def showNotification (bootstrapAvailable : Bool) (existing : Option Toast)
    (message : String) (type : String) : Toast × ShowMechanism :=
  let t0 := match existing with
    | some t => t
    | none => { message := "", classes := ["toast"] }
  let t1 := { t0 with message := message }
  let _unusedSeverity := type
  (t1, if bootstrapAvailable then .bootstrapToast 3000 else .fadeFallback 3000)

/-- Claim C2 (code bug): calling `showNotification("Payment failed",
"error")` on a toast previously classed `["toast", "success"]` rewrites
the message text and picks the 3-second display mechanism, but leaves the
class list exactly `["toast", "success"]`: the severity is never applied
and the previous severity class is never removed, because the source line
`$toast.remove//Class('success error warning info').addClass(type);`
comments out the class update mid-chain. -/
theorem showNotification_severity_not_applied :
    showNotification true (some { message := "old", classes := ["toast", "success"] })
        "Payment failed" "error" =
      ({ message := "Payment failed", classes := ["toast", "success"] },
        .bootstrapToast 3000) ∧
    "error" ∉ (showNotification true
      (some { message := "old", classes := ["toast", "success"] })
      "Payment failed" "error").1.classes := by
  decide

/-! ### Dispatcher failure path (`sendJsonRequest`'s `.fail` handler) -/

/-- Outcome of `JSON.parse(xhr.responseText)` in the `.fail` handler: the
parse either throws, or yields an object whose optional `message` field
is recorded (a present-but-empty message is falsy in
`errorData.message || errorMessage`). -/
inductive JsonParseOutcome where
  | fail
  | parsed (message : Option String)
  deriving Repr, DecidableEq

/-- The error message computed by the `.fail` handler: `'Request failed'`
by default; when `xhr.responseText` is non-empty, the parsed `message`
field if the body parses and the field is truthy, otherwise
`xhr.responseText.substring(0, 100) + '...'`. -/
def jsonFailMessage (responseText : String) (parse : JsonParseOutcome) : String :=
  if responseText != "" then
    match parse with
    | .parsed m =>
      match m with
      | some s => if s != "" then s else "Request failed"
      | none => "Request failed"
    | .fail => responseText.take 100 ++ "..."
  else "Request failed"

/-- The `.fail` handler of `sendJsonRequest`: clears the loading state
and applies `ajax-error` (the `failFx` class updates), surfaces the
computed message at `error` severity, and broadcasts
`stveronica.jsonRequestFailed`. -/
def jsonRequestFail (s : UIState) (responseText : String)
    (parse : JsonParseOutcome) : UIState × List Event :=
  (failFx s,
   [.notify (jsonFailMessage responseText parse) "error",
    .trigger "stveronica.jsonRequestFailed"])

/-- Claim C8: for every failed JSON request with a non-empty error body,
if the body does not parse as JSON the surfaced notification is the first
100 characters of the raw body followed by the `...` ellipsis marker at
`error` severity; if the body parses with a truthy `message` field, that
message is surfaced instead. -/
theorem jsonRequestFail_message (s : UIState) (responseText : String)
    (parse : JsonParseOutcome) (hne : responseText ≠ "") :
    (parse = .fail →
      (jsonRequestFail s responseText parse).2 =
        [.notify (responseText.take 100 ++ "...") "error",
         .trigger "stveronica.jsonRequestFailed"]) ∧
    (∀ m, parse = .parsed (some m) → m ≠ "" →
      (jsonRequestFail s responseText parse).2 =
        [.notify m "error", .trigger "stveronica.jsonRequestFailed"]) := by
  constructor
  · rintro rfl
    simp [jsonRequestFail, jsonFailMessage, hne]
  · rintro m rfl hm
    simp [jsonRequestFail, jsonFailMessage, hne, hm]

/-- A 150-character non-JSON error body. -/
def errBody150 : String := String.mk (List.replicate 150 'a')

set_option maxRecDepth 4000 in
/-- Claim C8 witness: a failed request whose non-JSON error body has 150
characters surfaces exactly the first 100 characters followed by `...`
at `error` severity. -/
theorem jsonRequestFail_message_witness :
    (jsonRequestFail { spinner := [], body := [] } errBody150 .fail).2 =
      [.notify (String.mk (List.replicate 100 'a') ++ "...") "error",
       .trigger "stveronica.jsonRequestFailed"] := by
  have h := (jsonRequestFail_message { spinner := [], body := [] } errBody150
    .fail (by decide)).1 rfl
  exact h.trans (by decide)

/-! ### AJAX prefetch cache (`ajaxPrefetch` and `ajaxCache`)

`ajaxCache` is a plain object keyed by URL; it is modelled as an
association list in which the most recent write is found first, matching
`ajaxCache[url] = data` overwrite semantics.  The page's network is an
oracle `String → Option String` (`some body` = the GET succeeds, `none` =
it fails). -/

/-- Read of `ajaxCache[url]`. -/
def cacheGet (cache : List (String × String)) (url : String) : Option String :=
  (cache.find? (fun p => p.1 == url)).map (fun p => p.2)

/-- Write `ajaxCache[url] = data`. -/
def cachePut (cache : List (String × String)) (url data : String) :
    List (String × String) :=
  (url, data) :: cache

/-- The per-element configuration read by `ajaxPrefetch`: the element's
URL, its `data-response-type` (defaulted to `'default'`) and whether it
carries the `ajax-load` class. -/
structure PrefetchConfig where
  url : String
  responseType : String := "default"
  ajaxLoad : Bool := false
  deriving Repr, DecidableEq

/-- What one user interaction did: the cache afterwards, the network
requests it issued, and the response data it handled (routed to
`handleJsonResponse` or `loadAjaxContent`), if any. -/
structure InteractionResult where
  cache : List (String × String)
  requests : List String
  handled : Option String
  deriving Repr, DecidableEq

/-- The `$.ajax` GET issued by the hover handler (js 145–181): on
success writes the cache entry and routes the response when the element's
response type is `json`; on error only the failure classes/notification
fire. -/
def hoverFetch (net : String → Option String) (cfg : PrefetchConfig)
    (cache : List (String × String)) : InteractionResult :=
  match net cfg.url with
  | some data =>
    { cache := cachePut cache cfg.url data
      requests := [cfg.url]
      handled := if cfg.responseType == "json" then some data else none }
  | none => { cache := cache, requests := [cfg.url], handled := none }

/-- The `$.ajax` GET issued by the click handler (js 202–237): on success
writes the cache entry and handles the data (routed when `json`, loaded
as content otherwise). -/
def clickFetch (net : String → Option String) (cfg : PrefetchConfig)
    (cache : List (String × String)) : InteractionResult :=
  match net cfg.url with
  | some data =>
    { cache := cachePut cache cfg.url data
      requests := [cfg.url]
      handled := some data }
  | none => { cache := cache, requests := [cfg.url], handled := none }

/-- The `mouseenter focus` handler installed by `ajaxPrefetch`: guarded
by `if (!ajaxCache[url])`, a JS truthiness test — the GET is issued both
when the entry is absent and when it holds a falsy value such as the
empty string; only a truthy cached value makes the handler do nothing. -/
def hoverInteraction (net : String → Option String) (cfg : PrefetchConfig)
    (cache : List (String × String)) : InteractionResult :=
  match cacheGet cache cfg.url with
  | some data =>
    if data != "" then { cache := cache, requests := [], handled := none }
    else hoverFetch net cfg cache
  | none => hoverFetch net cfg cache

/-- The `click` handler installed by `ajaxPrefetch`: only acts when the
element has the `ajax-load` class or its response type is `json`; then
`if (ajaxCache[url])` — again JS truthiness — decides between handling
the cached value directly with no network request and fetching. -/
def clickInteraction (net : String → Option String) (cfg : PrefetchConfig)
    (cache : List (String × String)) : InteractionResult :=
  if cfg.ajaxLoad || cfg.responseType == "json" then
    match cacheGet cache cfg.url with
    | some data =>
      if data != "" then { cache := cache, requests := [], handled := some data }
      else clickFetch net cfg cache
    | none => clickFetch net cfg cache
  else { cache := cache, requests := [], handled := none }

/-- Claim C4 counterexample: a successful GET of an empty body writes
`ajaxCache[url] = ""` (js 155 stores unconditionally), so a cache entry
exists for `"/page"` — yet, because both handlers test JS truthiness of
`ajaxCache[url]` rather than presence, the next hover and the next click
each issue the network request again, refuting the claim that no second
network request is issued while a cache entry exists. -/
theorem ajaxPrefetch_refetch_on_falsy_cache :
    cacheGet [("/page", "")] "/page" = some "" ∧
    (hoverInteraction (fun _ => some "") { url := "/page" }
      [("/page", "")]).requests = ["/page"] ∧
    (clickInteraction (fun _ => some "") { url := "/page", responseType := "json" }
      [("/page", "")]).requests = ["/page"] := by
  decide

/-- Claim C4 (amended): while the cache entry for a URL holds a truthy
(non-empty) value, a hover prefetch and a click load on that URL issue no
network request and leave the cache unchanged, and the click handles
exactly the cached value; when the entry is absent — or falsy, as after
a successful fetch of an empty body — a hover issues the network fetch,
and only a successful fetch writes the cache entry. -/
theorem ajaxPrefetch_cache_behavior (net : String → Option String)
    (cfg : PrefetchConfig) (cache : List (String × String)) :
    (∀ d, cacheGet cache cfg.url = some d → d ≠ "" →
      (hoverInteraction net cfg cache).requests = [] ∧
      (hoverInteraction net cfg cache).cache = cache ∧
      (clickInteraction net cfg cache).requests = [] ∧
      (clickInteraction net cfg cache).cache = cache ∧
      ((cfg.ajaxLoad || cfg.responseType == "json") = true →
        (clickInteraction net cfg cache).handled = some d)) ∧
    (truthyStr (cacheGet cache cfg.url) = false →
      (hoverInteraction net cfg cache).requests = [cfg.url] ∧
      (net cfg.url = none → (hoverInteraction net cfg cache).cache = cache) ∧
      (∀ b, net cfg.url = some b →
        cacheGet (hoverInteraction net cfg cache).cache cfg.url = some b)) := by
  constructor
  · intro d hd hdne
    have hdb : (d != "") = true := by simpa using hdne
    have hh : hoverInteraction net cfg cache =
        { cache := cache, requests := [], handled := none } := by
      unfold hoverInteraction; rw [hd]; simp [hdb]
    have hc : clickInteraction net cfg cache =
        if cfg.ajaxLoad || cfg.responseType == "json" then
          { cache := cache, requests := [], handled := some d }
        else { cache := cache, requests := [], handled := none } := by
      unfold clickInteraction; rw [hd]; simp [hdb]
    refine ⟨by rw [hh], by rw [hh], ?_, ?_, ?_⟩
    · rw [hc]; split <;> rfl
    · rw [hc]; split <;> rfl
    · intro hcond; rw [hc]; simp [hcond]
  · intro hfalsy
    have hh : hoverInteraction net cfg cache = hoverFetch net cfg cache := by
      unfold hoverInteraction
      rcases hg : cacheGet cache cfg.url with _ | d
    -- absent entry: the fetch branch is taken directly
      · rfl
    -- present falsy entry: the truthiness test sends the code fetching
      · rw [hg] at hfalsy
        have hdb : (d != "") = false := by simpa [truthyStr] using hfalsy
        simp [hdb]
    refine ⟨?_, ?_, ?_⟩
    · rw [hh]; unfold hoverFetch
      rcases hnet : net cfg.url with _ | b <;> rfl
    · intro hnet; rw [hh]; unfold hoverFetch; rw [hnet]
    · intro b hnet
      rw [hh]; unfold hoverFetch; rw [hnet]
      simp [cacheGet, cachePut]

/-- Claim C4 witness: with `"/about"` cached as the truthy `"<main/>"`
and a network that would answer differently, a hover issues no request
and a `json` click handles the cached value with no request, while an
uncached URL's hover fetches and caches the response. -/
theorem ajaxPrefetch_cache_behavior_witness :
    (hoverInteraction (fun _ => some "fresh")
        { url := "/about", responseType := "json" } [("/about", "<main/>")]).requests
      = [] ∧
    (clickInteraction (fun _ => some "fresh")
        { url := "/about", responseType := "json" } [("/about", "<main/>")]).handled
      = some "<main/>" ∧
    cacheGet (hoverInteraction (fun _ => some "fresh")
        { url := "/news", responseType := "json" } []).cache "/news" = some "fresh" := by
  have h1 := (ajaxPrefetch_cache_behavior (fun _ => some "fresh")
    { url := "/about", responseType := "json" } [("/about", "<main/>")]).1
    "<main/>" (by decide) (by decide)
  have h2 := (ajaxPrefetch_cache_behavior (fun _ => some "fresh")
    { url := "/news", responseType := "json" } []).2 (by decide)
  exact ⟨h1.1, h1.2.2.2.2 (by decide), h2.2.2 "fresh" rfl⟩

/-! ### Form error rendering (`displayFormErrors`)

The document is a list of form fields in document order.  Each field
records the form it belongs to (`e.form = sel` models matching the
descendant selector `sel [name=...]`), its `name` attribute, whether it
carries the `is-invalid` class, and the texts of the `.error-message`
elements sitting immediately after it. -/

/-- A form field element of the page, in document order. -/
structure FieldElem where
  form : String
  name : String
  invalid : Bool
  errorsAfter : List String
  deriving Repr, DecidableEq

/-- The effect of `$('.error-message').remove();
$('.is-invalid').removeClass('is-invalid');` on one element. -/
def clearElem (e : FieldElem) : FieldElem :=
  { e with invalid := false, errorsAfter := [] }

/-- The document-wide clearing step (both selectors are global). -/
def clearAllErrors (doc : List FieldElem) : List FieldElem :=
  doc.map clearElem

/-- One iteration of the `Object.keys(errors).forEach` body on one
element: the elements matched by
`` `${formSelector} [name="${field}"]` `` gain the `is-invalid` class and
an `.error-message` div inserted immediately after them. -/
def applyFieldErrorElem (formSelector : String) (p : String × String)
    (e : FieldElem) : FieldElem :=
  if e.form = formSelector ∧ e.name = p.1 then
    { e with invalid := true, errorsAfter := p.2 :: e.errorsAfter }
  else e

/-- One iteration of the `forEach` over the whole document. -/
def applyFieldError (formSelector : String) (doc : List FieldElem)
    (p : String × String) : List FieldElem :=
  doc.map (applyFieldErrorElem formSelector p)

/-- Embedding of `displayFormErrors(errors, formSelector)`: clears all previously
rendered errors document-wide, renders the new errors, then — when a
first invalid field exists inside the form and reduced motion is not
preferred — animates the scroll to that field's offset minus the fixed
100px margin.  Returns the document and the scroll target (field name
and fixed offset), if any. -/
def displayFormErrors (errors : List (String × String)) (formSelector : String)
    (doc : List FieldElem) (reducedMotion : Bool) :
    List FieldElem × Option (String × Nat) :=
  let rendered := errors.foldl (applyFieldError formSelector) (clearAllErrors doc)
  let firstInvalid := rendered.find? (fun e => e.form == formSelector && e.invalid)
  (rendered,
   match firstInvalid, reducedMotion with
   | some e, false => some (e.name, 100)
   | _, _ => none)

@[simp]
theorem applyFieldErrorElem_form (fs : String) (p : String × String) (e : FieldElem) :
    (applyFieldErrorElem fs p e).form = e.form := by
  unfold applyFieldErrorElem; split <;> rfl

@[simp]
theorem applyFieldErrorElem_name (fs : String) (p : String × String) (e : FieldElem) :
    (applyFieldErrorElem fs p e).name = e.name := by
  unfold applyFieldErrorElem; split <;> rfl

/-- Folding a list of per-element map steps over a document acts
pointwise on each element. -/
theorem foldl_map_pointwise {α β : Type} (l : List α) (f : α → β → β) (d : List β) :
    l.foldl (fun acc a => acc.map (f a)) d =
      d.map (fun b => l.foldl (fun b a => f a b) b) := by
  induction l generalizing d with
  | nil => simp
  | cons a l ih =>
    simp only [List.foldl_cons]
    rw [ih, List.map_map]
    rfl

/-- An element outside the targeted form is never touched by the error
rendering fold. -/
theorem foldl_applyElem_of_form_ne (errors : List (String × String)) (fs : String)
    (e : FieldElem) (h : e.form ≠ fs) :
    errors.foldl (fun b p => applyFieldErrorElem fs p b) e = e := by
  induction errors with
  | nil => rfl
  | cons p rest ih =>
    have hp : applyFieldErrorElem fs p e = e := by
      unfold applyFieldErrorElem
      rw [if_neg]
      rintro ⟨h1, _⟩
      exact h h1
    simp only [List.foldl_cons, hp]
    exact ih

/-- An element whose name matches no remaining error key is never
touched by the error rendering fold. -/
theorem foldl_applyElem_of_no_name (rest : List (String × String)) (fs : String)
    (e : FieldElem) (h : ∀ q ∈ rest, q.1 ≠ e.name) :
    rest.foldl (fun b p => applyFieldErrorElem fs p b) e = e := by
  induction rest with
  | nil => rfl
  | cons q rest ih =>
    have hq : applyFieldErrorElem fs q e = e := by
      unfold applyFieldErrorElem
      rw [if_neg]
      rintro ⟨_, h2⟩
      exact h q (List.mem_cons_self q rest) h2.symm
    simp only [List.foldl_cons, hq]
    exact ih (fun q' hq' => h q' (List.mem_cons_of_mem _ hq'))

/-- Error rendering on a cleared element of the targeted form: the first
error entry whose key equals the element's name wins, and distinct keys
guarantee exactly one message ends up after the field. -/
theorem foldl_applyElem_cleared_of_form (errors : List (String × String))
    (fs : String) (e : FieldElem) (hform : e.form = fs)
    (hnd : (errors.map Prod.fst).Nodup) :
    errors.foldl (fun b p => applyFieldErrorElem fs p b) (clearElem e) =
      match errors.find? (fun p => p.1 == e.name) with
      | some p => { e with invalid := true, errorsAfter := [p.2] }
      | none => clearElem e := by
  induction errors with
  | nil => rfl
  | cons p rest ih =>
    have hmap : (p.1 :: rest.map Prod.fst).Nodup := by
      simpa only [List.map_cons] using hnd
    by_cases hname : p.1 = e.name
    · have step : applyFieldErrorElem fs p (clearElem e) =
          { e with invalid := true, errorsAfter := [p.2] } := by
        unfold applyFieldErrorElem clearElem
        rw [if_pos ⟨hform, hname.symm⟩]
      have hni : p.1 ∉ rest.map Prod.fst := (List.nodup_cons.mp hmap).1
      have hnotin : ∀ q ∈ rest, q.1 ≠ e.name := by
        intro q hq hqe
        exact hni (hname ▸ hqe ▸ List.mem_map_of_mem Prod.fst hq)
      have hfind : List.find? (fun q => q.1 == e.name) (p :: rest) = some p := by
        simp [List.find?_cons, hname]
      simp only [List.foldl_cons, step]
      rw [foldl_applyElem_of_no_name rest fs
          { e with invalid := true, errorsAfter := [p.2] } hnotin, hfind]
    · have step : applyFieldErrorElem fs p (clearElem e) = clearElem e := by
        unfold applyFieldErrorElem
        rw [if_neg]
        rintro ⟨_, h2⟩
        exact hname h2.symm
      have hnd' : (rest.map Prod.fst).Nodup := (List.nodup_cons.mp hmap).2
      have hfind : List.find? (fun q => q.1 == e.name) (p :: rest) =
          List.find? (fun q => q.1 == e.name) rest := by
        have hb : (p.1 == e.name) = false := by simpa using hname
        simp [List.find?_cons, hb]
      simp only [List.foldl_cons, step]
      rw [ih hnd', hfind]

/-- Per-element characterisation of the full clear-then-render pass
(distinct error keys): a field of the targeted form whose name is an
error key ends with the `is-invalid` class and exactly its one message
after it; every other field ends fully cleared. -/
theorem foldl_applyElem_cleared (errors : List (String × String)) (fs : String)
    (e : FieldElem) (hnd : (errors.map Prod.fst).Nodup) :
    errors.foldl (fun b p => applyFieldErrorElem fs p b) (clearElem e) =
      match errors.find? (fun p => p.1 == e.name) with
      | some p =>
        if e.form = fs then { e with invalid := true, errorsAfter := [p.2] }
        else clearElem e
      | none => clearElem e := by
  by_cases hform : e.form = fs
  · rw [foldl_applyElem_cleared_of_form errors fs e hform hnd]
    rcases h : errors.find? (fun p => p.1 == e.name) with _ | p <;>
      rw [h] <;> simp [hform]
  · have hcf : (clearElem e).form ≠ fs := hform
    rw [foldl_applyElem_of_form_ne errors fs (clearElem e) hcf]
    rcases h : errors.find? (fun p => p.1 == e.name) with _ | p <;>
      rw [h] <;> simp [hform]

/-- The rendered document, expressed pointwise. -/
theorem displayFormErrors_doc_eq (errors : List (String × String)) (fs : String)
    (doc : List FieldElem) (rm : Bool) :
    (displayFormErrors errors fs doc rm).1 =
      doc.map (fun e =>
        errors.foldl (fun b p => applyFieldErrorElem fs p b) (clearElem e)) := by
  show errors.foldl (applyFieldError fs) (clearAllErrors doc) = _
  unfold applyFieldError clearAllErrors
  rw [foldl_map_pointwise, List.map_map]
  rfl

/-- Claim C6 counterexample: with reduced motion preferred, routing
`{form_errors: {email: "Invalid email"}}` renders the error after the
`email` field and marks it invalid, yet NO scroll to the first invalid
field happens at all (`displayFormErrors` guards the scroll with
`!prefersReducedMotion`), refuting the unconditional claim that the
first invalid field is focused/scrolled to. -/
theorem displayFormErrors_no_scroll_under_reduced_motion :
    (displayFormErrors [("email", "Invalid email")] "#contact"
        [{ form := "#contact", name := "email", invalid := false,
           errorsAfter := [] }] true).1 =
      [{ form := "#contact", name := "email", invalid := true,
         errorsAfter := ["Invalid email"] }] ∧
    (displayFormErrors [("email", "Invalid email")] "#contact"
        [{ form := "#contact", name := "email", invalid := false,
           errorsAfter := [] }] true).2 = none := by
  decide

/-- Claim C6 (amended): for a `form` envelope with `form_errors` (whose
keys, being object keys, are distinct), all previously rendered field
errors are cleared first and exactly one error message element is
rendered immediately after each named field present in the form; the
first invalid field of the form is then scrolled to with the fixed 100px
offset — but only when reduced motion is not preferred, the scroll being
skipped entirely otherwise. -/
theorem displayFormErrors_renders (errors : List (String × String)) (fs : String)
    (doc : List FieldElem) (rm : Bool) (hnd : (errors.map Prod.fst).Nodup) :
    (displayFormErrors errors fs doc rm).1 =
      doc.map (fun e =>
        match errors.find? (fun p => p.1 == e.name) with
        | some p =>
          if e.form = fs then { e with invalid := true, errorsAfter := [p.2] }
          else clearElem e
        | none => clearElem e) ∧
    (displayFormErrors errors fs doc rm).2 =
      (if rm then none
       else ((displayFormErrors errors fs doc rm).1.find?
          (fun e => e.form == fs && e.invalid)).map (fun e => (e.name, 100))) := by
  constructor
  · rw [displayFormErrors_doc_eq]
    exact congrArg (fun f => List.map f doc)
      (funext fun e => foldl_applyElem_cleared errors fs e hnd)
  · have h2 : (displayFormErrors errors fs doc rm).2 =
        match (displayFormErrors errors fs doc rm).1.find?
            (fun e => e.form == fs && e.invalid), rm with
        | some e, false => some (e.name, 100)
        | _, _ => none := rfl
    rw [h2]
    rcases hf : (displayFormErrors errors fs doc rm).1.find?
        (fun e => e.form == fs && e.invalid) with _ | e <;>
      rw [hf] <;> cases rm <;> simp

/-- Claim C6 witness: for the envelope `{form_errors: {email: "Invalid
email"}}` and a one-field form, exactly one error element is inserted
after the `email` field, the field is marked invalid, and (reduced
motion off) the scroll targets it with the fixed 100px offset. -/
theorem displayFormErrors_renders_witness :
    (displayFormErrors [("email", "Invalid email")] "#contact"
        [{ form := "#contact", name := "email", invalid := false,
           errorsAfter := [] }] false).1 =
      [{ form := "#contact", name := "email", invalid := true,
         errorsAfter := ["Invalid email"] }] ∧
    (displayFormErrors [("email", "Invalid email")] "#contact"
        [{ form := "#contact", name := "email", invalid := false,
           errorsAfter := [] }] false).2 = some ("email", 100) := by
  have h := displayFormErrors_renders [("email", "Invalid email")] "#contact"
    [{ form := "#contact", name := "email", invalid := false,
       errorsAfter := [] }] false (by decide)
  exact ⟨h.1.trans (by decide), h.2.trans (by decide)⟩

/-- Claim C10: the clearing step of `displayFormErrors` acts on the whole
document (`$('.error-message')` and `$('.is-invalid')` are global
selectors), so every field outside the targeted form — whatever form it
belongs to — ends with no invalid marker and no error message, erasing
error markers previously rendered for other forms. -/
theorem displayFormErrors_clears_other_forms (errors : List (String × String))
    (fs : String) (doc : List FieldElem) (rm : Bool) (i : Nat)
    (hi : i < doc.length) (hne : (doc.get ⟨i, hi⟩).form ≠ fs) :
    ((displayFormErrors errors fs doc rm).1)[i]? =
      some (clearElem (doc.get ⟨i, hi⟩)) := by
  rw [displayFormErrors_doc_eq, List.getElem?_map,
    List.getElem?_eq_getElem hi]
  have hcf : (clearElem (doc.get ⟨i, hi⟩)).form ≠ fs := hne
  simp only [Option.map_some']
  exact congrArg some
    (foldl_applyElem_of_form_ne errors fs (clearElem (doc.get ⟨i, hi⟩)) hcf)

/-- A page with fields of two different forms; the second form's field
starts with a rendered error. -/
def twoFormsDoc : List FieldElem :=
  [{ form := "#a", name := "email", invalid := false, errorsAfter := [] },
   { form := "#b", name := "name", invalid := true, errorsAfter := ["Old error"] }]

/-- Claim C10 witness: displaying errors for form `#a` erases the error
marker previously rendered on form `#b`'s field. -/
theorem displayFormErrors_clears_other_forms_witness :
    ((displayFormErrors [("email", "bad")] "#a" twoFormsDoc false).1)[1]? =
      some { form := "#b", name := "name", invalid := false,
             errorsAfter := [] } := by
  have h := displayFormErrors_clears_other_forms [("email", "bad")] "#a"
    twoFormsDoc false 1 (by decide) (by decide)
  exact h.trans (by decide)

end StVeronica
